/-
  Verification of the chunkymonkey game-state coordinator and world store.

  The Game part embeds src/unnamed/part_000 (package chunkymonkey): the game
  state, the radius queries, the multicast helpers and the AddPlayer,
  RemovePlayer, AddPickupItem and tick operations.  Side effects on player
  connections (TransmitPacket) are represented as an explicit list of Event
  values, in the order the Go code performs the transmissions.

  The world store part embeds src/pkg/chunkymonkey/worldstore/worldstore.go:
  LoadWorldStore and absXyzFromNbt over an explicit tag-tree model.
-/
import Mathlib

namespace Chunkymonkey

/-- Process-unique entity identifier. -/
abbrev EntityID := Nat

/-- Discrete chunk coordinate pair, as the Go ChunkXZ. -/
structure ChunkXZ where
  x : Int
  z : Int
deriving DecidableEq

/-- Absolute position with three coordinates.  The Go code stores float64
coordinates; no claim does arithmetic on them beyond the chunk floor
division, so the rationals stand in for the exact float values. -/
structure AbsXyz where
  x : Rat
  y : Rat
  z : Rat
deriving DecidableEq

/-- Player orientation (passed through to spawn packets, never inspected). -/
structure Orientation where
  yaw : Rat
  pitch : Rat
deriving DecidableEq

/-- Player record: EntityID, display name, position, orientation, held item. -/
structure Player where
  eid : EntityID
  name : String
  position : AbsXyz
  orientation : Orientation
  currentItem : Int
deriving DecidableEq

/-- Dropped item entity: EntityID and position. -/
structure PickupItem where
  eid : EntityID
  position : AbsXyz
deriving DecidableEq

/-- The packets the embedded operations write into buffers.  Payload layout is
owned by external encoders; only the kind and the fields passed matter. -/
inductive Packet where
  | chatMessage (msg : String)
  | namedEntitySpawn (eid : EntityID) (name : String) (pos : AbsXyz)
      (look : Orientation) (item : Int)
  | destroyEntity (eid : EntityID)
  | timeUpdate (t : Int)
deriving DecidableEq

/-- One call of TransmitPacket: the receiving player and the buffer contents
(the sequence of packets written into the buffer, possibly empty). -/
structure Event where
  recipient : EntityID
  payload : List Packet
deriving DecidableEq

/-- The Game state of part_000.  The Go maps players and pickupItems are kept
as lists (insertion order fixes the unspecified map iteration order); the
entity directory is the list of registered ids.  time is the int64 world
clock. -/
structure Game where
  entities : List EntityID
  players : List Player
  pickupItems : List (EntityID × PickupItem)
  time : Int
deriving DecidableEq

/-- Modelled from the spec: ChunkRadius is the fixed interest-radius constant
of the types package, which is not under src; its numeric value is fixed
here at 10.  No theorem below depends on the particular value. -/
def ChunkRadius : Int := 10

/-- Modelled from the spec: ChunkXZ is derived by floor-dividing the
horizontal components of a position by the fixed chunk edge length (16);
the types package holding ToChunkXZ is not under src.  Floor division of
the floor is used, which coincides with the floor of the quotient for the
positive integer edge length. -/
def AbsXyz.ToChunkXZ (p : AbsXyz) : ChunkXZ :=
  ⟨Int.fdiv (Rat.floor p.x) 16, Int.fdiv (Rat.floor p.z) 16⟩

/-- Modelled from the spec: EntityDirectory registration (EntityManager code
is not under src); the freshly allocated id is recorded. -/
def addEntity (es : List EntityID) (eid : EntityID) : List EntityID :=
  es ++ [eid]

/-- Modelled from the spec: EntityDirectory unregistration. -/
def removeEntity (es : List EntityID) (eid : EntityID) : List EntityID :=
  es.filter (fun e => !(e == eid))

/-- Go map assignment players[eid] = player: overwrite when the key is
present, otherwise add the binding. -/
def insertPlayer (ps : List Player) (p : Player) : List Player :=
  if ps.any (fun q => q.eid == p.eid) then
    ps.map (fun q => if q.eid == p.eid then p else q)
  else
    ps ++ [p]

/-- Go map deletion players[eid] = nil, false. -/
def erasePlayer (ps : List Player) (eid : EntityID) : List Player :=
  ps.filter (fun q => !(q.eid == eid))

/-- Go map assignment pickupItems[eid] = item. -/
def mapInsert (m : List (EntityID × PickupItem)) (k : EntityID) (v : PickupItem) :
    List (EntityID × PickupItem) :=
  if m.any (fun kv => kv.1 == k) then
    m.map (fun kv => if kv.1 == k then (k, v) else kv)
  else
    m ++ [(k, v)]

/-- Game.PlayersInRadius of part_000.  The bounds are exactly the ones the Go
code computes: both maxX and maxZ are loc.x + ChunkRadius + 1 (the source
derives maxZ from loc.x, not loc.z). -/
def Game.PlayersInRadius (game : Game) (loc : ChunkXZ) : List Player :=
  let minX := loc.x - ChunkRadius
  let minZ := loc.z - ChunkRadius
  let maxX := loc.x + ChunkRadius + 1
  let maxZ := loc.x + ChunkRadius + 1
  game.players.filter (fun player =>
    let p := player.position.ToChunkXZ
    decide (minX ≤ p.x ∧ p.x ≤ maxX ∧ minZ ≤ p.z ∧ p.z ≤ maxZ))

/-- Game.PlayersInPlayerRadius: the radius query centred on the chunk of the
given player. -/
def Game.PlayersInPlayerRadius (game : Game) (player : Player) : List Player :=
  game.PlayersInRadius player.position.ToChunkXZ

/-- Game.MulticastPacket: transmit to every registered player other than the
excluded one (none means no exclusion).  The Go code compares player
pointers; under the EntityID-uniqueness invariant this is the id test. -/
def Game.MulticastPacket (game : Game) (packet : List Packet)
    (except : Option EntityID) : List Event :=
  (game.players.filter (fun player =>
    match except with
    | some e => !(player.eid == e)
    | none => true)).map (fun player => Event.mk player.eid packet)

/-- Game.SendChatMessage: wrap a chat packet and multicast with no
exclusion. -/
def Game.SendChatMessage (game : Game) (message : String) : List Event :=
  game.MulticastPacket [Packet.chatMessage message] none

/-- Game.MulticastChunkPacket: transmit to all players within radius of the
chunk, with no exclusion. -/
def Game.MulticastChunkPacket (game : Game) (packet : List Packet)
    (loc : ChunkXZ) : List Event :=
  (game.PlayersInRadius loc).map (fun receiver => Event.mk receiver.eid packet)

/-- Game.MulticastRadiusPacket: transmit to all players within radius of the
sender, the sender itself excluded. -/
def Game.MulticastRadiusPacket (game : Game) (packet : List Packet)
    (sender : Player) : List Event :=
  ((game.PlayersInPlayerRadius sender).filter
      (fun receiver => !(receiver.eid == sender.eid))).map
    (fun receiver => Event.mk receiver.eid packet)

/-- The packet WriteNamedEntitySpawn writes for a player. -/
def spawnPacketFor (q : Player) : Packet :=
  Packet.namedEntitySpawn q.eid q.name q.position q.orientation q.currentItem

/-- Game.AddPlayer of part_000, effects in source order: register the entity,
insert into the player map, join chat broadcast, spawn multicast to the
radius set minus the player, and one batched buffer of existing-player
spawns transmitted to the new player. -/
def Game.AddPlayer (game : Game) (player : Player) : Game × List Event :=
  let g1 : Game := { game with entities := addEntity game.entities player.eid }
  let g2 : Game := { g1 with players := insertPlayer g1.players player }
  let chatEvents := g2.SendChatMessage (player.name ++ " has joined")
  let radiusEvents := g2.MulticastRadiusPacket [spawnPacketFor player] player
  let batch := ((g2.PlayersInPlayerRadius player).filter
      (fun existing => !(existing.eid == player.eid))).map spawnPacketFor
  (g2, chatEvents ++ radiusEvents ++ [Event.mk player.eid batch])

/-- Game.RemovePlayer of part_000, effects in source order: destroy-entity
multicast to the radius set minus the player, map deletion, entity
unregistration, leave chat broadcast to the remaining players. -/
def Game.RemovePlayer (game : Game) (player : Player) : Game × List Event :=
  let destroyEvents := game.MulticastRadiusPacket [Packet.destroyEntity player.eid] player
  let g1 : Game := { game with players := erasePlayer game.players player.eid }
  let g2 : Game := { g1 with entities := removeEntity g1.entities player.eid }
  let chatEvents := g2.SendChatMessage (player.name ++ " has left")
  (g2, destroyEvents ++ chatEvents)

/-- Game.AddPickupItem of part_000.  WritePickupSpawn is an external encoder
that can fail; it is passed in as ser.  On failure the Go code logs and
returns, leaving the registrations in place. -/
def Game.AddPickupItem (ser : PickupItem → Option Packet) (game : Game)
    (item : PickupItem) : Game × List Event :=
  let g1 : Game := { game with entities := addEntity game.entities item.eid }
  let g2 : Game := { g1 with pickupItems := mapInsert g1.pickupItems item.eid item }
  match ser item with
  | none => (g2, [])
  | some pkt => (g2, g2.MulticastChunkPacket [pkt] item.position.ToChunkXZ)

/-- Two-complement int64 wraparound, applied where the Go int64 arithmetic
can overflow. -/
def wrap64 (n : Int) : Int :=
  (n + 9223372036854775808) % 18446744073709551616 - 9223372036854775808

/-- Game.sendTimeUpdate: broadcast the current clock to all players. -/
def Game.sendTimeUpdate (game : Game) : List Event :=
  game.MulticastPacket [Packet.timeUpdate game.time] none

/-- Game.tick: advance the int64 clock by 20 and broadcast it. -/
def Game.tick (game : Game) : Game × List Event :=
  let g1 : Game := { game with time := wrap64 (game.time + 20) }
  (g1, g1.sendTimeUpdate)

/-- n successive applications of the tick command (states only). -/
def iterTick : Nat → Game → Game
  | 0, g => g
  | n + 1, g => iterTick n (Game.tick g).1

/-- The membership rule exactly as claim C1 and the spec state it: symmetric
inclusive bounds of ChunkRadius on both axes. -/
def claimRadiusMember (loc p : ChunkXZ) : Prop :=
  |p.x - loc.x| ≤ ChunkRadius ∧ |p.z - loc.z| ≤ ChunkRadius

instance (loc p : ChunkXZ) : Decidable (claimRadiusMember loc p) := by
  unfold claimRadiusMember; infer_instance

/-- The interest-radius set of a player minus the player itself, the
recipient set the claims describe. -/
def radiusOthers (g : Game) (p : Player) : List Player :=
  (g.PlayersInPlayerRadius p).filter (fun q => !(q.eid == p.eid))

/-- The tag-tree values worldstore.go inspects.  Double payloads are carried
as rationals standing in for the exact float64 values (no arithmetic is
performed on them); compound stands for every other tag kind. -/
inductive NbtTag where
  | int (v : Int)
  | long (v : Int)
  | double (v : Rat)
  | list (elems : List NbtTag)
  | compound

/-- A parsed tag tree, addressed by lookup path (as nbt Lookup is used by
worldstore.go: a path either resolves to a tag or does not). -/
abbrev LevelData := List (String × NbtTag)

/-- nbt Lookup over the path-addressed view of the tree. -/
def lookupTag (ld : LevelData) (p : String) : Option NbtTag :=
  (ld.find? (fun kv => kv.1 == p)).map (fun kv => kv.2)

/-- The Go comma-ok type assertion to a *nbt.Int at a path. -/
def intAt (ld : LevelData) (p : String) : Option Int :=
  match lookupTag ld p with
  | some (NbtTag.int v) => some v
  | _ => none

/-- The Go comma-ok type assertion to a *nbt.Long at a path. -/
def longAt (ld : LevelData) (p : String) : Option Int :=
  match lookupTag ld p with
  | some (NbtTag.long v) => some v
  | _ => none

/-- The Go comma-ok type assertion to a *nbt.Double on a tag value. -/
def asDouble : NbtTag → Option Rat
  | NbtTag.double v => some v
  | _ => none

/-- The WorldStore fields the claims are about (seed, elapsed ticks, spawn
position); the world path and the composed chunk store handle are
represented by the list of started services returned next to it. -/
structure WorldStore where
  seed : Int
  time : Int
  spawnPosition : AbsXyz
deriving DecidableEq

/-- The failure cases of LoadWorldStore: the missing-required-field error for
the spawn coordinates, and a failure from the persistent chunk store
constructor. -/
inductive WsError where
  | missingSpawn
  | chunkStoreError
deriving DecidableEq

/-- The services LoadWorldStore starts with go Serve, in start order. -/
inductive Service where
  | persistentTier
  | proceduralTier (seed : Int)
  | combinator
deriving DecidableEq

/-- LoadWorldStore of worldstore.go, past the metadata read: the level data
is passed in already parsed, persistentOk stands for whether
ChunkStoreForLevel succeeds, and defaultSeed is the process-time-derived
value rand.NewSource(time.Seconds()).Int63() used when /Data/RandomSeed is
absent.  The second component lists the services started (none on any error
return). -/
def LoadWorldStore (ld : LevelData) (persistentOk : Bool) (defaultSeed : Int) :
    Except WsError WorldStore × List Service :=
  match intAt ld "/Data/SpawnX", intAt ld "/Data/SpawnY", intAt ld "/Data/SpawnZ" with
  | some x, some y, some z =>
    let timeTicks : Int := (longAt ld "/Data/Time").getD 0
    if persistentOk then
      let seed : Int := (longAt ld "/Data/RandomSeed").getD defaultSeed
      (Except.ok { seed := seed, time := timeTicks,
                   spawnPosition := AbsXyz.mk (x : Rat) (y : Rat) (z : Rat) },
       [Service.persistentTier, Service.proceduralTier seed, Service.combinator])
    else
      (Except.error WsError.chunkStoreError, [])
  | _, _, _ => (Except.error WsError.missingSpawn, [])

/-- The BadType error of worldstore.go, carrying the offending path. -/
structure BadType where
  path : String
deriving DecidableEq

/-- absXyzFromNbt of worldstore.go.  The result none models the Go runtime
index-out-of-range panic that posList.Value[0..2] raises when the list has
fewer than three elements; otherwise the outcome is the returned pair. -/
def absXyzFromNbt (tag : LevelData) (path : String) : Option (Except BadType AbsXyz) :=
  match lookupTag tag path with
  | some (NbtTag.list elems) =>
    match elems[0]?, elems[1]?, elems[2]? with
    | some e0, some e1, some e2 =>
      match asDouble e0, asDouble e1, asDouble e2 with
      | some x, some y, some z => some (Except.ok (AbsXyz.mk x y z))
      | _, _, _ => some (Except.error (BadType.mk path))
    | _, _, _ => none
  | _ => some (Except.error (BadType.mk path))

/-- The spec-side reading of claim C10: the value at the path is a list whose
first three elements are Double tags, yielding those three values. -/
def firstThreeDoubles : Option NbtTag → Option (Rat × Rat × Rat)
  | some (NbtTag.list (NbtTag.double x :: NbtTag.double y :: NbtTag.double z :: _)) =>
    some (x, y, z)
  | _ => none

/-- Modelled from the spec: the chunk payload a tier serves; its layout is
never inspected by the tiering logic, so an abstract value stands for it. -/
abbrev Chunk := Nat

/-- Modelled from the spec: a chunk tier answers a coordinate with chunk
data or absence (the chunkstore package is not under src). -/
abbrev Tier := ChunkXZ → Option Chunk

/-- Modelled from the spec: the ChunkCombinator holds an ordered list of
tiers, queries them in priority order and returns the first present result;
if no tier has the chunk the query is a miss.  The second component
instruments the lookup with the indices of the tiers actually invoked. -/
def combinatorLookup : List Tier → ChunkXZ → Option Chunk × List Nat
  | [], _ => (none, [])
  | t :: ts, c =>
    match t c with
    | some ch => (some ch, [0])
    | none =>
      let r := combinatorLookup ts c
      (r.1, 0 :: r.2.map (fun i => i + 1))

/-- The state claim C2 describes after the two registrations of AddPlayer:
the entity recorded and the player appended to the directory. -/
def afterAdd (g : Game) (p : Player) : Game :=
  { g with entities := g.entities ++ [p.eid], players := g.players ++ [p] }

/-- The state claim C6 describes after the two registrations of
AddPickupItem: the entity recorded and the item inserted. -/
def afterAddItem (g : Game) (item : PickupItem) : Game :=
  { g with entities := g.entities ++ [item.eid], pickupItems := mapInsert g.pickupItems item.eid item }

/-- A player whose chunk is (0, 11): inside the code bounds of origin (0,0)
on the z axis only because of the stray plus one. -/
def pInY : Player := ⟨1, "far-z", ⟨0, 64, 176⟩, ⟨0, 0⟩, 0⟩

/-- A player whose chunk is (-20, 5): within the symmetric radius of origin
(-20, 0), yet rejected by the code because maxZ is derived from loc.x. -/
def pInX : Player := ⟨2, "near-z", ⟨-320, 64, 80⟩, ⟨0, 0⟩, 0⟩

/-- Game used to exhibit the PlayersInRadius bound defect. -/
def gC1 : Game := ⟨[1, 2], [pInY, pInX], [], 0⟩

/-- An empty game state, the starting point of several witnesses. -/
def gEmptyW : Game := ⟨[], [], [], 0⟩

/-- A concrete player at chunk (0, 0). -/
def pAlice : Player := ⟨1, "alice", ⟨0, 64, 0⟩, ⟨0, 0⟩, 0⟩

/-- A concrete pickup item at chunk (0, 0). -/
def itemW : PickupItem := ⟨7, ⟨0, 64, 0⟩⟩

/-- A pickup-spawn serializer that always fails. -/
def serNone : PickupItem → Option Packet := fun _ => none

/-- Two players sharing chunk (0, 0), for the RemovePlayer witness. -/
def pBob : Player := ⟨1, "bob", ⟨0, 64, 0⟩, ⟨0, 0⟩, 0⟩

def pCarol : Player := ⟨2, "carol", ⟨8, 64, 8⟩, ⟨0, 0⟩, 0⟩

def gC5 : Game := ⟨[1, 2], [pBob, pCarol], [], 0⟩

/-- A game whose int64 clock sits at the maximum representable value. -/
def gOverflow : Game := ⟨[], [], [], 9223372036854775807⟩

/-- A small game with one player and clock 100, for the tick witness. -/
def gTickW : Game := ⟨[1], [pAlice], [], 100⟩

/-- Level data whose spawn coordinates are Double (floating) tags. -/
def ldDoubleSpawn : LevelData :=
  [("/Data/SpawnX", NbtTag.double 0),
   ("/Data/SpawnY", NbtTag.double 64),
   ("/Data/SpawnZ", NbtTag.double 0)]

/-- Level data with integer spawn coordinates and no time or seed fields. -/
def ldIntSpawn : LevelData :=
  [("/Data/SpawnX", NbtTag.int 1),
   ("/Data/SpawnY", NbtTag.int 64),
   ("/Data/SpawnZ", NbtTag.int (-2))]

/-- A persistent tier holding only chunk (0, 0). -/
def tPersW : Tier := fun c => if c = ⟨0, 0⟩ then some 5 else none

/-- A second tier that always answers. -/
def tProcW : Tier := fun _ => some 9

/-- A second tier that never answers. -/
def tNoneW : Tier := fun _ => none

/-- A concrete deterministic generator function. -/
def genW : Int → ChunkXZ → Chunk := fun s c => s.natAbs + c.x.natAbs + c.z.natAbs

/-- A tag tree holding a three-element Double list at path Pos. -/
def tagPosW : LevelData :=
  [("Pos", NbtTag.list [NbtTag.double 1, NbtTag.double 2, NbtTag.double 3])]

theorem firstThreeDoubles_cons (e0 e1 e2 : NbtTag) (rest : List NbtTag) :
    firstThreeDoubles (some (NbtTag.list (e0 :: e1 :: e2 :: rest))) =
      (match asDouble e0, asDouble e1, asDouble e2 with
       | some x, some y, some z => some (x, y, z)
       | _, _, _ => none) := by
  cases e0 <;> cases e1 <;> cases e2 <;> rfl

theorem insertPlayer_fresh (ps : List Player) (p : Player)
    (h : p.eid ∉ ps.map Player.eid) : insertPlayer ps p = ps ++ [p] := by
  have hany : ps.any (fun q => q.eid == p.eid) = false := by
    simp only [List.any_eq_false, beq_eq_false_iff_ne, ne_eq]
    intro q hq he
    exact h (List.mem_map.mpr ⟨q, hq, by simpa using he⟩)
  simp [insertPlayer, hany]

theorem mapInsert_mem (m : List (EntityID × PickupItem)) (k : EntityID)
    (v : PickupItem) : (k, v) ∈ mapInsert m k v := by
  unfold mapInsert
  by_cases h : m.any (fun kv => kv.1 == k) = true
  · rw [if_pos h]
    rcases List.any_eq_true.mp h with ⟨kv, hm, hk⟩
    refine List.mem_map.mpr ⟨kv, hm, ?_⟩
    rw [if_pos hk]
  · rw [if_neg h]
    exact List.mem_append.mpr (Or.inr (List.mem_singleton.mpr rfl))

theorem multicastPacket_none (g : Game) (pkt : List Packet) :
    g.MulticastPacket pkt none = g.players.map (fun q => Event.mk q.eid pkt) := by
  unfold Game.MulticastPacket
  congr 1
  induction g.players with
  | nil => rfl
  | cons a l ih => simp [List.filter, ih]

theorem wrap64_eq (n : Int) (h1 : -9223372036854775808 ≤ n)
    (h2 : n ≤ 9223372036854775807) : wrap64 n = n := by
  unfold wrap64
  omega

theorem iterTick_time : ∀ (n : Nat) (g : Game),
    -9223372036854775808 ≤ g.time →
    g.time + 20 * (n : Int) ≤ 9223372036854775807 →
    (iterTick n g).time = g.time + 20 * (n : Int)
  | 0, g, _, _ => by simp [iterTick]
  | n + 1, g, h1, h2 => by
    have hn : (0 : Int) ≤ 20 * (n : Int) := by positivity
    have hcast : ((n + 1 : Nat) : Int) = (n : Int) + 1 := by push_cast; ring
    rw [hcast] at h2
    have hb : g.time + 20 ≤ 9223372036854775807 := by linarith
    have ht : (Game.tick g).1.time = g.time + 20 := by
      simp [Game.tick]
      exact wrap64_eq _ (by omega) (by omega)
    have hrec := iterTick_time n (Game.tick g).1 (by rw [ht]; omega)
      (by rw [ht]; linarith)
    show (iterTick n (Game.tick g).1).time = _
    rw [hrec, ht, hcast]
    ring

/-- C1: the claim states that a player is in the result of PlayersInRadius
(X, Z) iff the absolute differences on both axes are at most ChunkRadius.
The code violates this in both directions: the player at chunk (0, 11) is
returned for origin (0, 0) although its z distance is 11 > 10, because both
upper bounds carry a stray plus one; and the player at chunk (-20, 5) is
not returned for origin (-20, 0) although both distances are within 10,
because the code derives maxZ from loc.x instead of loc.z.  The source
comment and the spec describe the symmetric rule, so this is a defect of
the code. -/
theorem C1_PlayersInRadius_defect :
    (pInY.position.ToChunkXZ = ⟨0, 11⟩ ∧
      pInY ∈ gC1.PlayersInRadius ⟨0, 0⟩ ∧
      ¬ claimRadiusMember ⟨0, 0⟩ ⟨0, 11⟩) ∧
    (pInX.position.ToChunkXZ = ⟨-20, 5⟩ ∧
      pInX ∉ gC1.PlayersInRadius ⟨-20, 0⟩ ∧
      claimRadiusMember ⟨-20, 0⟩ ⟨-20, 5⟩) := by
  decide

/-- C4 counterexample: at the largest int64 clock value the tick command
wraps the clock around instead of increasing it by 20, so the clock is not
strictly monotonic and the step is not exactly 20 at every clock value. -/
theorem C4_tick_overflow :
    (Game.tick gOverflow).1.time ≠ gOverflow.time + 20 ∧
    (Game.tick gOverflow).1.time < gOverflow.time := by
  constructor <;> decide

/-- C4 as amended: as long as the int64 clock cannot overflow (clock plus 20
still representable), every tick advances the clock by exactly 20 (hence
strictly increases it), the value broadcast to all players equals the new
internal clock exactly, and n ticks from clock t reach t + 20n while the
bound holds. -/
theorem C4_tick_step (g : Game) (h1 : -9223372036854775808 ≤ g.time)
    (h2 : g.time + 20 ≤ 9223372036854775807) :
    Game.tick g = ({ g with time := g.time + 20 },
      g.players.map (fun q => Event.mk q.eid [Packet.timeUpdate (g.time + 20)])) ∧
    g.time < (Game.tick g).1.time ∧
    (∀ n : Nat, g.time + 20 * (n : Int) ≤ 9223372036854775807 →
      (iterTick n g).time = g.time + 20 * (n : Int)) := by
  have hw : wrap64 (g.time + 20) = g.time + 20 := wrap64_eq _ (by omega) h2
  have heq : Game.tick g = ({ g with time := g.time + 20 },
      g.players.map (fun q => Event.mk q.eid [Packet.timeUpdate (g.time + 20)])) := by
    simp only [Game.tick, Game.sendTimeUpdate, hw]
    rw [multicastPacket_none]
  refine ⟨heq, ?_, ?_⟩
  · have hproj : (Game.tick g).1.time = g.time + 20 := by rw [heq]
    omega
  · intro n hn
    exact iterTick_time n g h1 hn

/-- C4 witness: the amended tick theorem applied at a concrete game with
clock 100 and one player. -/
theorem C4_tick_step_witness :
    ((-9223372036854775808 ≤ gTickW.time) ∧
      gTickW.time + 20 ≤ 9223372036854775807) ∧
    Game.tick gTickW = ({ gTickW with time := gTickW.time + 20 },
      gTickW.players.map (fun q => Event.mk q.eid [Packet.timeUpdate (gTickW.time + 20)])) ∧
    (iterTick 3 gTickW).time = gTickW.time + 20 * ((3 : Nat) : Int) := by
  have h := C4_tick_step gTickW (by decide) (by decide)
  exact ⟨⟨by decide, by decide⟩, h.1, h.2.2 3 (by decide)⟩

/-- C2: for a player with a fresh EntityID, AddPlayer registers the entity,
inserts the player into the directory, and then emits, in this order: the
join chat message to every player registered at that point (the new player
included), one spawn-new-player notification to each member of the
interest-radius set other than the new player, and one batched buffer of
spawn notifications for those same existing players, transmitted to the
new player alone. -/
theorem C2_AddPlayer_effects (g : Game) (p : Player)
    (h : p.eid ∉ g.players.map Player.eid) :
    Game.AddPlayer g p =
      (afterAdd g p,
        ((g.players ++ [p]).map
            (fun q => Event.mk q.eid [Packet.chatMessage (p.name ++ " has joined")]))
        ++ ((radiusOthers (afterAdd g p) p).map
            (fun q => Event.mk q.eid [spawnPacketFor p]))
        ++ [Event.mk p.eid ((radiusOthers (afterAdd g p) p).map spawnPacketFor)]) := by
  have hins : insertPlayer g.players p = g.players ++ [p] := insertPlayer_fresh _ _ h
  simp only [Game.AddPlayer, addEntity, Game.SendChatMessage, Game.MulticastRadiusPacket,
    radiusOthers, afterAdd, hins, multicastPacket_none]

/-- C2 witness: AddPlayer on the empty game state with a concrete player. -/
theorem C2_AddPlayer_effects_witness :
    (pAlice.eid ∉ gEmptyW.players.map Player.eid) ∧
    Game.AddPlayer gEmptyW pAlice =
      (afterAdd gEmptyW pAlice,
        ((gEmptyW.players ++ [pAlice]).map
            (fun q => Event.mk q.eid [Packet.chatMessage (pAlice.name ++ " has joined")]))
        ++ ((radiusOthers (afterAdd gEmptyW pAlice) pAlice).map
            (fun q => Event.mk q.eid [spawnPacketFor pAlice]))
        ++ [Event.mk pAlice.eid
              ((radiusOthers (afterAdd gEmptyW pAlice) pAlice).map spawnPacketFor)]) :=
  ⟨by decide, C2_AddPlayer_effects gEmptyW pAlice (by decide)⟩

/-- C9: the batched existing-players buffer is transmitted to the new player
unconditionally, as the final transmission of AddPlayer; when no other
player lies within the interest radius the new player still receives that
one transmission and its payload is the empty buffer. -/
theorem C9_AddPlayer_emptyBatch (g : Game) (p : Player)
    (h : p.eid ∉ g.players.map Player.eid) :
    ((Game.AddPlayer g p).2.getLast? =
      some (Event.mk p.eid ((radiusOthers (afterAdd g p) p).map spawnPacketFor))) ∧
    (radiusOthers (afterAdd g p) p = [] →
      (Game.AddPlayer g p).2.getLast? = some (Event.mk p.eid [])) := by
  have hins : insertPlayer g.players p = g.players ++ [p] := insertPlayer_fresh _ _ h
  have hlast : (Game.AddPlayer g p).2.getLast? =
      some (Event.mk p.eid ((radiusOthers (afterAdd g p) p).map spawnPacketFor)) := by
    simp only [Game.AddPlayer, addEntity, radiusOthers, afterAdd, hins]
    rw [List.getLast?_concat]
  refine ⟨hlast, fun hempty => ?_⟩
  rw [hlast, hempty]
  rfl

/-- C9 witness: adding a player to the empty game, where nobody else is in
radius, still transmits one empty batched buffer to that player. -/
theorem C9_AddPlayer_emptyBatch_witness :
    (pAlice.eid ∉ gEmptyW.players.map Player.eid) ∧
    (Game.AddPlayer gEmptyW pAlice).2.getLast? = some (Event.mk pAlice.eid []) :=
  ⟨by decide, (C9_AddPlayer_emptyBatch gEmptyW pAlice (by decide)).2 (by decide)⟩

/-- C5: RemovePlayer broadcasts the destroy-entity notification for the
player to its interest-radius set minus itself, erases the player from the
player directory, unregisters the entity, and broadcasts the leave chat
message to exactly the remaining players, so the removed player receives no
leave message. -/
theorem C5_RemovePlayer_effects (g : Game) (p : Player) :
    (Game.RemovePlayer g p).1.players = g.players.filter (fun q => !(q.eid == p.eid)) ∧
    (Game.RemovePlayer g p).1.entities = g.entities.filter (fun e => !(e == p.eid)) ∧
    p ∉ (Game.RemovePlayer g p).1.players ∧
    p.eid ∉ (Game.RemovePlayer g p).1.entities ∧
    (Game.RemovePlayer g p).2 =
      ((radiusOthers g p).map (fun q => Event.mk q.eid [Packet.destroyEntity p.eid]))
      ++ ((g.players.filter (fun q => !(q.eid == p.eid))).map
            (fun q => Event.mk q.eid [Packet.chatMessage (p.name ++ " has left")])) ∧
    (∀ ev ∈ (g.players.filter (fun q => !(q.eid == p.eid))).map
        (fun q => Event.mk q.eid [Packet.chatMessage (p.name ++ " has left")]),
      ev.recipient ≠ p.eid) := by
  refine ⟨rfl, rfl, ?_, ?_, ?_, ?_⟩
  · intro hmem
    have := (List.mem_filter.mp hmem).2
    simp at this
  · intro hmem
    have := (List.mem_filter.mp hmem).2
    simp at this
  · simp only [Game.RemovePlayer, Game.MulticastRadiusPacket, Game.SendChatMessage,
      radiusOthers, erasePlayer, removeEntity, multicastPacket_none]
  · intro ev hev
    rcases List.mem_map.mp hev with ⟨q, hq, hevq⟩
    have hne : (!(q.eid == p.eid)) = true := (List.mem_filter.mp hq).2
    rw [← hevq]
    simpa using hne

/-- C5 witness: removing bob from a two-player game in one chunk
neighbourhood; carol keeps her registration, bob is erased everywhere and
the leave message recipient is not bob. -/
theorem C5_RemovePlayer_effects_witness :
    (Game.RemovePlayer gC5 pBob).1.players =
      gC5.players.filter (fun q => !(q.eid == pBob.eid)) ∧
    pBob ∉ (Game.RemovePlayer gC5 pBob).1.players ∧
    pBob.eid ∉ (Game.RemovePlayer gC5 pBob).1.entities ∧
    (Event.mk 2 [Packet.chatMessage ("bob" ++ " has left")]).recipient ≠ pBob.eid :=
  have h := C5_RemovePlayer_effects gC5 pBob
  ⟨h.1, h.2.2.1, h.2.2.2.1, h.2.2.2.2.2 (Event.mk 2 [Packet.chatMessage ("bob" ++ " has left")]) (by decide)⟩

/-- C6: when packet construction fails during AddPickupItem, the spawn
broadcast is skipped (no transmissions at all) but the entity registration
and the item-directory insertion stand: there is no rollback, and the
operation simply returns. -/
theorem C6_AddPickupItem_noRollback (g : Game) (item : PickupItem)
    (ser : PickupItem → Option Packet) (h : ser item = none) :
    Game.AddPickupItem ser g item = (afterAddItem g item, []) ∧
    item.eid ∈ (Game.AddPickupItem ser g item).1.entities ∧
    (item.eid, item) ∈ (Game.AddPickupItem ser g item).1.pickupItems := by
  have heq : Game.AddPickupItem ser g item = (afterAddItem g item, []) := by
    simp only [Game.AddPickupItem, addEntity, afterAddItem, h]
  refine ⟨heq, ?_, ?_⟩
  · rw [heq]
    exact List.mem_append.mpr (Or.inr (List.mem_singleton.mpr rfl))
  · rw [heq]
    exact mapInsert_mem _ _ _

/-- C6 witness: a serializer that always fails, applied on the empty game;
the item is still registered and present, and nothing is transmitted. -/
theorem C6_AddPickupItem_noRollback_witness :
    serNone itemW = none ∧
    Game.AddPickupItem serNone gEmptyW itemW = (afterAddItem gEmptyW itemW, []) ∧
    (itemW.eid, itemW) ∈ (Game.AddPickupItem serNone gEmptyW itemW).1.pickupItems :=
  have h := C6_AddPickupItem_noRollback gEmptyW itemW serNone rfl
  ⟨rfl, h.1, h.2.2⟩

/-- C3 counterexample: the claim says LoadWorldStore extracts the spawn
position given three floating spawn coordinates, but the Go code only
accepts *nbt.Int tags for Spawn X, Y and Z: on metadata whose spawn
coordinates are Double tags the load fails with the missing-required-field
error (and starts nothing) instead of extracting the position. -/
theorem C3_LoadWorldStore_doubleSpawn :
    lookupTag ldDoubleSpawn "/Data/SpawnX" = some (NbtTag.double 0) ∧
    lookupTag ldDoubleSpawn "/Data/SpawnY" = some (NbtTag.double 64) ∧
    LoadWorldStore ldDoubleSpawn true 7 = (Except.error WsError.missingSpawn, []) :=
  ⟨rfl, rfl, rfl⟩

/-- C3 as amended: LoadWorldStore extracts the spawn position only from
three integer spawn coordinates (floating coordinates are rejected like
absent ones); when any spawn coordinate is absent as an integer tag it
fails with the missing-required-field error and starts no chunk services;
an absent elapsed-time field defaults to zero and an absent seed field
defaults to the supplied process-time-derived value, and neither of those
is fatal. -/
theorem C3_LoadWorldStore_fields (ld : LevelData) (pOk : Bool) (ds : Int) :
    ((intAt ld "/Data/SpawnX" = none ∨ intAt ld "/Data/SpawnY" = none ∨
        intAt ld "/Data/SpawnZ" = none) →
      LoadWorldStore ld pOk ds = (Except.error WsError.missingSpawn, [])) ∧
    (∀ x y z : Int, intAt ld "/Data/SpawnX" = some x →
      intAt ld "/Data/SpawnY" = some y → intAt ld "/Data/SpawnZ" = some z →
      LoadWorldStore ld true ds =
        (Except.ok (WorldStore.mk ((longAt ld "/Data/RandomSeed").getD ds)
            ((longAt ld "/Data/Time").getD 0)
            (AbsXyz.mk (x : Rat) (y : Rat) (z : Rat))),
         [Service.persistentTier,
          Service.proceduralTier ((longAt ld "/Data/RandomSeed").getD ds),
          Service.combinator])) := by
  constructor
  · intro h
    rcases hx : intAt ld "/Data/SpawnX" with _ | x <;>
      rcases hy : intAt ld "/Data/SpawnY" with _ | y <;>
        rcases hz : intAt ld "/Data/SpawnZ" with _ | z <;>
          simp_all [LoadWorldStore]
  · intro x y z hx hy hz
    simp only [LoadWorldStore, hx, hy, hz, if_true]

/-- C3 witness: metadata with integer spawn (1, 64, -2) and no time or seed
fields loads successfully, with time defaulted to zero, the seed defaulted
to the supplied value 7, and the three services started. -/
theorem C3_LoadWorldStore_fields_witness :
    intAt ldIntSpawn "/Data/SpawnX" = some 1 ∧
    LoadWorldStore ldIntSpawn true 7 =
      (Except.ok (WorldStore.mk 7 0 (AbsXyz.mk 1 64 (-2))),
       [Service.persistentTier, Service.proceduralTier 7, Service.combinator]) := by
  have h := (C3_LoadWorldStore_fields ldIntSpawn true 7).2 1 64 (-2) rfl rfl rfl
  refine ⟨rfl, ?_⟩
  rw [h]
  rfl

/-- C7: the combinator queries tiers in priority order and returns the
first present result.  When the persistent tier holds the coordinate the
procedural tier (index 1) is never invoked; when the persistent tier lacks
it the combinator returns the procedural generator value, deterministic in
the configured seed; when no tier has the chunk the query is a miss. -/
theorem C7_combinator_priority (t0 t1 : Tier) (gen : Int → ChunkXZ → Chunk)
    (seed : Int) (c : ChunkXZ) :
    (∀ ch, t0 c = some ch → combinatorLookup [t0, t1] c = (some ch, [0])) ∧
    (t0 c = none →
      combinatorLookup [t0, fun d => some (gen seed d)] c = (some (gen seed c), [0, 1])) ∧
    (t0 c = none → t1 c = none → combinatorLookup [t0, t1] c = (none, [0, 1])) := by
  refine ⟨?_, ?_, ?_⟩
  · intro ch h
    simp [combinatorLookup, h]
  · intro h
    simp [combinatorLookup, h]
  · intro h0 h1
    simp [combinatorLookup, h0, h1]

/-- C7 witness: with a persistent tier holding only chunk (0, 0), that
chunk is answered without touching the second tier; chunk (3, 0) falls
through to the generator for seed 42; and with an empty second tier the
query misses after both tiers were asked. -/
theorem C7_combinator_priority_witness :
    combinatorLookup [tPersW, tProcW] ⟨0, 0⟩ = (some 5, [0]) ∧
    combinatorLookup [tPersW, fun d => some (genW 42 d)] ⟨3, 0⟩ =
      (some (genW 42 ⟨3, 0⟩), [0, 1]) ∧
    combinatorLookup [tPersW, tNoneW] ⟨3, 0⟩ = (none, [0, 1]) :=
  ⟨(C7_combinator_priority tPersW tProcW genW 42 ⟨0, 0⟩).1 5 (by decide),
   (C7_combinator_priority tPersW tProcW genW 42 ⟨3, 0⟩).2.1 (by decide),
   (C7_combinator_priority tPersW tNoneW genW 42 ⟨3, 0⟩).2.2 (by decide) (by decide)⟩

/-- C10: whenever the value at the path, when it is a list, has at least
three elements (so the Go indexing cannot panic), absXyzFromNbt returns
the BadType(path) error exactly when the value is not a list or one of its
first three elements is not a Double tag, and otherwise returns, with no
error, the position built from exactly those three Double values. -/
theorem C10_absXyzFromNbt_cases (tag : LevelData) (path : String)
    (h : ∀ elems, lookupTag tag path = some (NbtTag.list elems) → 3 ≤ elems.length) :
    (∀ x y z : Rat, firstThreeDoubles (lookupTag tag path) = some (x, y, z) →
      absXyzFromNbt tag path = some (Except.ok (AbsXyz.mk x y z))) ∧
    (firstThreeDoubles (lookupTag tag path) = none →
      absXyzFromNbt tag path = some (Except.error (BadType.mk path))) := by
  rcases hl : lookupTag tag path with _ | t
  · exact ⟨fun x y z hsome => by simp [firstThreeDoubles] at hsome,
      fun _ => by simp [absXyzFromNbt, hl]⟩
  rcases t with v | v | v | elems | _
  · exact ⟨fun x y z hsome => by simp [firstThreeDoubles] at hsome,
      fun _ => by simp [absXyzFromNbt, hl]⟩
  · exact ⟨fun x y z hsome => by simp [firstThreeDoubles] at hsome,
      fun _ => by simp [absXyzFromNbt, hl]⟩
  · exact ⟨fun x y z hsome => by simp [firstThreeDoubles] at hsome,
      fun _ => by simp [absXyzFromNbt, hl]⟩
  · have hlen := h elems hl
    rcases elems with _ | ⟨e0, _ | ⟨e1, _ | ⟨e2, rest⟩⟩⟩
    · simp at hlen
    · simp at hlen
    · simp at hlen
    · have habs : absXyzFromNbt tag path =
          (match asDouble e0, asDouble e1, asDouble e2 with
           | some x, some y, some z => some (Except.ok (AbsXyz.mk x y z))
           | _, _, _ => some (Except.error (BadType.mk path))) := by
        simp [absXyzFromNbt, hl]
      rw [firstThreeDoubles_cons]
      constructor
      · intro x y z hsome
        rcases h0 : asDouble e0 with _ | x0 <;> rcases h1 : asDouble e1 with _ | x1 <;>
          rcases h2 : asDouble e2 with _ | x2 <;> simp_all
      · intro hnone
        rcases h0 : asDouble e0 with _ | x0 <;> rcases h1 : asDouble e1 with _ | x1 <;>
          rcases h2 : asDouble e2 with _ | x2 <;> simp_all
  · exact ⟨fun x y z hsome => by simp [firstThreeDoubles] at hsome,
      fun _ => by simp [absXyzFromNbt, hl]⟩

/-- C10 witness: a three-element Double list at path Pos yields the
position (1, 2, 3) with no error. -/
theorem C10_absXyzFromNbt_cases_witness :
    (∀ elems, lookupTag tagPosW "Pos" = some (NbtTag.list elems) → 3 ≤ elems.length) ∧
    absXyzFromNbt tagPosW "Pos" = some (Except.ok (AbsXyz.mk 1 2 3)) := by
  have hyp : ∀ elems, lookupTag tagPosW "Pos" = some (NbtTag.list elems) →
      3 ≤ elems.length := by
    intro elems hl
    rw [show lookupTag tagPosW "Pos" =
        some (NbtTag.list [NbtTag.double 1, NbtTag.double 2, NbtTag.double 3]) from rfl] at hl
    injection hl with hl
    injection hl with hl
    rw [← hl]
    simp
  exact ⟨hyp, (C10_absXyzFromNbt_cases tagPosW "Pos" hyp).1 1 2 3 rfl⟩

end Chunkymonkey
